import Mathlib

/-!
Verification development for the Littlefield-Lite factory game
(`src/game.py`): a per-day discrete-event simulation of a three-stage
line (Prep → Assembly → Testing) with day-boundary accounting.

The stochastic simpy scheduling of service is abstracted: wherever the
source draws `random.expovariate(...)` the embedding consumes an explicit
stream of sample values, and the set of orders that finish within the
24-hour window (`factory.completed_orders`) is passed as a parameter to
the day-boundary accounting, which is embedded exactly.  All clock values
are rationals, cash and revenue are integers, order ids are naturals.
-/

namespace Game

/-- Configuration constant from `game.py` line 9. -/
def HOURS_PER_DAY : ℚ := 24

/-- Configuration constant from `game.py` line 10. -/
def REVENUE_PER_ORDER : ℤ := 1000

/-- Configuration constant from `game.py` line 11. -/
def MAX_LEAD_TIME_FOR_BONUS : ℚ := 24

/-- Configuration constant from `game.py` line 12. -/
def LATE_PENALTY : ℤ := 500

/-- Configuration constant from `game.py` line 13. -/
def MACHINE_COST : ℤ := 20000

/-- The three stations of the line (keys of `PROC_TIMES`, `machine_counts`). -/
inductive StationName
  | Prep
  | Assembly
  | Testing
deriving DecidableEq, Repr

/-- Mean processing times (`PROC_TIMES`, lines 16-20), in hours. -/
def PROC_TIMES : StationName → ℚ
  | .Prep => 3 / 2
  | .Assembly => 3
  | .Testing => 2

/-- Mean interarrival gap (`ARRIVAL_RATE_MEAN`, line 21), in hours. -/
def ARRIVAL_RATE_MEAN : ℚ := 6 / 5

/-- One record of `factory.completed_orders` / `history_logs`
(the dict appended at lines 76-81). -/
structure CompletedOrder where
  orderId : ℕ
  revenue : ℤ
  dayCompleted : ℕ
  leadTime : ℚ
deriving DecidableEq, Repr

/-- One entry of `state['backlog']`, with the two fields read at line 46:
`order['id']` and `order['arrival_time_global']`.  No stage or remaining
service duration is stored. -/
structure BacklogOrder where
  id : ℕ
  arrivalTimeGlobal : ℚ
deriving DecidableEq, Repr

/-- Embeds line 65 of `process_order`:
`finish_time_global = arrival_time_global + (self.env.now if is_new else self.env.now)`,
where `envNow` is the day-relative simpy clock at completion.  The ternary
from the source is kept verbatim (both branches are `env.now`). -/
def finish_time_global (arrival_time_global envNow : ℚ) ( is_new : Bool) : ℚ :=
  arrival_time_global + (if is_new then envNow else envNow)

/-- Embeds line 69 of `process_order`:
`lead_time = finish_time_global - arrival_time_global`. -/
def lead_time (arrival_time_global envNow : ℚ) ( is_new : Bool) : ℚ :=
  finish_time_global arrival_time_global envNow is_new - arrival_time_global

/-- Embeds lines 72-74 of `process_order`: `revenue = REVENUE_PER_ORDER`,
reduced by `LATE_PENALTY` when `lead_time > MAX_LEAD_TIME_FOR_BONUS`. -/
def revenue (lt : ℚ) : ℤ :=
  if lt > MAX_LEAD_TIME_FOR_BONUS then REVENUE_PER_ORDER - LATE_PENALTY
  else REVENUE_PER_ORDER

/-- Modelled from the spec: the global completion time of an order that
completes at day-relative clock `envNow` on day `day`, "expressed on the
same continuous global clock spanning all days, not reset per day"
(spec §4.2) — i.e. `day * 24 + envNow`.  The source never computes this
quantity; it is the spec-side definition the recorded lead time is
compared against. -/
def specGlobalCompletion (day : ℕ) (envNow : ℚ) : ℚ :=
  (day : ℚ) * 24 + envNow

/-- The per-station machine counts: the dict built at line 173
(`{'Prep': m1, 'Assembly': m2, 'Testing': m3}`), also the shape of
`state['machines_owned']` (line 187). -/
structure MachineCounts where
  prep : ℕ
  assembly : ℕ
  testing : ℕ
deriving DecidableEq, Repr

/-- The session state `st.session_state['sim_state']` (lines 26-33),
together with the lazily-added `state['machines_owned']` key (line 186-187),
absent (`none`) until the first RUN NEXT DAY click. -/
structure SimState where
  day : ℕ
  cash : ℤ
  historyLogs : List CompletedOrder
  backlog : List BacklogOrder
  lastOrderId : ℕ
  gameOver : Bool
  machinesOwned : Option MachineCounts
deriving DecidableEq, Repr

/-- The initial session state (lines 26-33): day 0, cash 50000, empty
history and backlog, last order id 0; `machines_owned` not yet present. -/
def initialSimState : SimState :=
  { day := 0
    cash := 50000
    historyLogs := []
    backlog := []
    lastOrderId := 0
    gameOver := false
    machinesOwned := none }

/-- Embeds lines 44-46 of `DailyFactory.__init__`: every order of
`initial_backlog` is loaded into the scheduler at time 0 of the day by
spawning `process_order(order['id'], order['arrival_time_global'],
is_new=False)`.  Each element is the argument triple of one spawned
process. -/
def initialBacklogProcesses (initial_backlog : List BacklogOrder) :
    List (ℕ × ℚ × Bool) :=
  initial_backlog.map (fun o => (o.id, o.arrivalTimeGlobal, false))

/-- Embeds the service phase of `process_order` (lines 48-62): the three
station blocks run unconditionally from the top — Prep, then Assembly,
then Testing — each holding for a freshly drawn `random.expovariate`
sample; `draws n` is the n-th sample the process consumes.  The `is_new`
flag is not consulted anywhere before line 65, so it is received but
cannot influence the sequence. -/
def processOrderStages ( is_new : Bool) (draws : ℕ → ℚ) :
    List (StationName × ℚ) :=
  [(StationName.Prep, draws 0),
   (StationName.Assembly, draws 1),
   (StationName.Testing, draws 2)]

/-- Embeds the arrival loop of `daily_arrivals` (lines 92-103), driven by
the explicit stream of interarrival samples it consumes: starting from
running time `t` and id counter `lastId`, each sample advances `t`; the
loop stops when `t` passes `HOURS_PER_DAY` (or the supplied stream is
exhausted).  Otherwise `last_order_id` is incremented and a process is
spawned for `(last_order_id, day * 24 + t)`.  Returns the spawned
`(id, global_arrival)` pairs and the final `last_order_id`. -/
def dailyArrivalsGo (samples : List ℚ) (t : ℚ) (day : ℕ) (lastId : ℕ) :
    List (ℕ × ℚ) × ℕ :=
  match samples with
  | [] => ([], lastId)
  | interarrival :: rest =>
    let t2 := t + interarrival
    if t2 > HOURS_PER_DAY then ([], lastId)
    else
      let oid := lastId + 1
      let global_arrival := (day : ℚ) * 24 + t2
      let more := dailyArrivalsGo rest t2 day oid
      ((oid, global_arrival) :: more.1, more.2)

/-- Embeds `daily_arrivals` (lines 91-103): the loop above started at
`t = 0`. -/
def daily_arrivals (samples : List ℚ) (day : ℕ) (lastId : ℕ) :
    List (ℕ × ℚ) × ℕ :=
  dailyArrivalsGo samples 0 day lastId

/-- Embeds `run_one_day` (lines 83-140).  The simpy run (`env.run(until=24)`)
is abstracted: `completedToday` stands for `factory.completed_orders` when
the run stops, and `arrivalSamples` for the interarrival draws consumed by
`daily_arrivals`.  The end-of-day processing is embedded exactly:
cash grows by the summed revenue (lines 111-112), the completed orders are
appended to `history_logs` (line 115), the day counter is incremented
(line 140), and `last_order_id` holds the value `daily_arrivals` left it
at.  Lines 117-137 only bind unused locals and comments; in particular
`state['backlog']` is never reassigned. -/
def run_one_day (arrivalSamples : List ℚ) (completedToday : List CompletedOrder)
    (state : SimState) : SimState :=
  let arr := daily_arrivals arrivalSamples state.day state.lastOrderId
  let daily_revenue := (completedToday.map (fun o => o.revenue)).sum
  { state with
    cash := state.cash + daily_revenue
    historyLogs := state.historyLogs ++ completedToday
    lastOrderId := arr.2
    day := state.day + 1 }

/-- Embeds the Capex loop of the RUN NEXT DAY handler (lines 190-195),
unrolled over the three keys of `machine_counts`: each station whose
requested count exceeds the owned count contributes
`diff * MACHINE_COST`. -/
def capexCost (owned counts : MachineCounts) : ℤ :=
  (if counts.prep > owned.prep
    then ((counts.prep : ℤ) - (owned.prep : ℤ)) * MACHINE_COST else 0)
  + (if counts.assembly > owned.assembly
    then ((counts.assembly : ℤ) - (owned.assembly : ℤ)) * MACHINE_COST else 0)
  + (if counts.testing > owned.testing
    then ((counts.testing : ℤ) - (owned.testing : ℤ)) * MACHINE_COST else 0)

/-- Embeds the owned-count update of the same loop (line 195): a station's
owned count becomes the requested count only when the requested count is
strictly higher. -/
def updatedOwned (owned counts : MachineCounts) : MachineCounts :=
  { prep := if counts.prep > owned.prep then counts.prep else owned.prep
    assembly := if counts.assembly > owned.assembly then counts.assembly else owned.assembly
    testing := if counts.testing > owned.testing then counts.testing else owned.testing }

/-- Embeds the purchase step of the handler (lines 190-198): the Capex loop
followed by `if cost > 0: state['cash'] -= cost`.  Returns the new cash
balance and the new owned counts. -/
def purchase (cash : ℤ) (owned counts : MachineCounts) : ℤ × MachineCounts :=
  (if capexCost owned counts > 0 then cash - capexCost owned counts else cash,
   updatedOwned owned counts)

/-- Embeds the RUN NEXT DAY button handler (lines 175-204): when
`state['day'] < 30`, default `machines_owned` to one machine per station if
absent, run the purchase step, then `run_one_day`; otherwise only a warning
is shown and nothing changes. -/
def runNextDay (counts : MachineCounts) (arrivalSamples : List ℚ)
    (completedToday : List CompletedOrder) (state : SimState) : SimState :=
  if state.day < 30 then
    let owned := state.machinesOwned.getD { prep := 1, assembly := 1, testing := 1 }
    let bought := purchase state.cash owned counts
    run_one_day arrivalSamples completedToday
      { state with cash := bought.1, machinesOwned := some bought.2 }
  else state

/-- C4: a completed order's revenue is exactly 1000 when its lead time is
at most 24.0 hours, and exactly 500 when its lead time exceeds 24.0 hours. -/
theorem revenue_rule (lt : ℚ) :
    (lt ≤ 24 → revenue lt = 1000) ∧ (24 < lt → revenue lt = 500) := by
  constructor
  · intro h
    simp [revenue, MAX_LEAD_TIME_FOR_BONUS, REVENUE_PER_ORDER, not_lt.mpr h]
  · intro h
    simp [revenue, MAX_LEAD_TIME_FOR_BONUS, REVENUE_PER_ORDER, LATE_PENALTY, h]

/-- Witness for `revenue_rule` at lead times 20.0 and 30.0. -/
theorem revenue_rule_witness : revenue 20 = 1000 ∧ revenue 30 = 500 :=
  ⟨(revenue_rule 20).1 (by norm_num), (revenue_rule 30).2 (by norm_num)⟩

/-- C1: order conservation fails at a concrete reachable day.  From the
initial state, one interarrival draw of 1.0 hour produces one new arrival
(id 1, global time 1.0); if its service has not finished when the 24-hour
window closes, `factory.completed_orders` is empty — yet the stored backlog
after the run is still empty, because lines 117-137 never reassign
`state['backlog']`.  So carried_in (0) + new_arrivals (1) ≠ completed (0)
+ carried_out (0): the arrival is silently dropped at the day boundary. -/
theorem conservation_fails :
    (daily_arrivals [1] 0 0).1.length = 1 ∧
    (run_one_day [1] [] initialSimState).backlog.length = 0 ∧
    initialSimState.backlog.length + (daily_arrivals [1] 0 0).1.length ≠
      ([] : List CompletedOrder).length +
        (run_one_day [1] [] initialSimState).backlog.length := by
  have h1 : (daily_arrivals [1] 0 0).1.length = 1 := by
    norm_num [daily_arrivals, dailyArrivalsGo, HOURS_PER_DAY]
  have h2 : (run_one_day [1] [] initialSimState).backlog.length = 0 := rfl
  have h3 : initialSimState.backlog.length = 0 := rfl
  refine ⟨h1, h2, ?_⟩
  rw [h1, h2, h3]
  decide

/-- C2: the recorded lead time is not the global completion time minus the
global arrival time.  Take the claim's own scenario: an order with
`arrival_time_global = 10.0` completing at global time 30.0, i.e. at
day-relative clock 6.0 on day 1.  The continuous-clock completion time is
`specGlobalCompletion 1 6 = 30`, so the claimed lead time is 20.0 — but
lines 65-69 record `lead_time = env.now = 6.0`. -/
theorem lead_time_not_global :
    specGlobalCompletion 1 6 = 30 ∧
    lead_time 10 6 false = 6 ∧
    lead_time 10 6 false ≠ specGlobalCompletion 1 6 - 10 := by
  refine ⟨by norm_num [specGlobalCompletion], ?_, ?_⟩ <;>
    norm_num [lead_time, finish_time_global, specGlobalCompletion]

/-- C3: a carried-over order is restarted, not resumed.  A backlog entry
stores only an id and a global arrival time (no stage, no remaining
duration), and `process_order` runs the same three station blocks with
fresh draws whether `is_new` is true or false: with draw stream
`d = fun n => n + 2` the re-instantiated (`is_new = false`) order serves
Prep for `d 0 = 2`, Assembly for `d 1 = 3`, Testing for `d 2 = 4` —
identical to a brand-new order — instead of resuming at its recorded
stage with its remaining duration. -/
theorem backlog_restarted_from_prep :
    (initialBacklogProcesses [{ id := 1, arrivalTimeGlobal := 10 }] =
      [(1, 10, false)]) ∧
    processOrderStages false (fun n => (n : ℚ) + 2) =
      [(StationName.Prep, 2), (StationName.Assembly, 3), (StationName.Testing, 4)] ∧
    processOrderStages false (fun n => (n : ℚ) + 2) =
      processOrderStages true (fun n => (n : ℚ) + 2) := by
  refine ⟨rfl, by norm_num [processOrderStages], rfl⟩

/-- C6: a RUN NEXT DAY request with the day counter at 30 or more is a
no-op — the purchase step and `run_one_day` are both inside the
`state['day'] < 30` branch, so the whole session state (cash and day
counter in particular) is returned unchanged. -/
theorem campaign_ended_noop (counts : MachineCounts) (arrivalSamples : List ℚ)
    (completedToday : List CompletedOrder) (state : SimState)
    (h : 30 ≤ state.day) :
    runNextDay counts arrivalSamples completedToday state = state := by
  unfold runNextDay
  rw [if_neg (by omega)]

/-- Witness for `campaign_ended_noop` at a concrete day-30 state. -/
theorem campaign_ended_noop_witness :
    runNextDay { prep := 1, assembly := 1, testing := 1 } [] []
        { day := 30, cash := 12345, historyLogs := [], backlog := [],
          lastOrderId := 7, gameOver := false, machinesOwned := none } =
      { day := 30, cash := 12345, historyLogs := [], backlog := [],
        lastOrderId := 7, gameOver := false, machinesOwned := none } :=
  campaign_ended_noop _ _ _ _ (by decide)

/-- C9 counterexample: `run_one_day` is not mutation-free on the campaign
state — already with no arrivals and no completions it increments the day
counter in place (line 140), so the state after the call differs from the
state before it, and no `DayResult` is returned for a client to apply. -/
theorem run_one_day_mutates :
    run_one_day [] [] initialSimState ≠ initialSimState := by
  decide

/-- C9 amended: `run_one_day` applies all state changes itself, directly on
the session state: it adds the day's summed revenue to cash, appends the
completed orders to `history_logs`, advances `last_order_id` to the value
the arrival loop left it at, increments the day counter, and leaves the
backlog untouched. -/
theorem run_one_day_updates_state_in_place (arrivalSamples : List ℚ)
    (completedToday : List CompletedOrder) (state : SimState) :
    (run_one_day arrivalSamples completedToday state).cash =
        state.cash + (completedToday.map (fun o => o.revenue)).sum ∧
    (run_one_day arrivalSamples completedToday state).historyLogs =
        state.historyLogs ++ completedToday ∧
    (run_one_day arrivalSamples completedToday state).lastOrderId =
        (daily_arrivals arrivalSamples state.day state.lastOrderId).2 ∧
    (run_one_day arrivalSamples completedToday state).day = state.day + 1 ∧
    (run_one_day arrivalSamples completedToday state).backlog = state.backlog := by
  refine ⟨rfl, rfl, rfl, rfl, rfl⟩

/-- C10: running one day never removes anything from the stored backlog —
`run_one_day` returns `state['backlog']` exactly as it was — and every
backlog order (by lines 44-46) is re-instantiated as a fresh
`process_order(id, arrival, is_new=False)` process at the start of the
next day, under the same order id, whether or not it completed and earned
revenue today. -/
theorem backlog_never_shrinks (arrivalSamples : List ℚ)
    (completedToday : List CompletedOrder) (state : SimState) :
    (run_one_day arrivalSamples completedToday state).backlog = state.backlog ∧
    ∀ o, o ∈ (run_one_day arrivalSamples completedToday state).backlog →
      (o.id, o.arrivalTimeGlobal, false) ∈
        initialBacklogProcesses (run_one_day arrivalSamples completedToday state).backlog := by
  refine ⟨rfl, ?_⟩
  intro o ho
  exact List.mem_map.mpr ⟨o, ho, rfl⟩

/-- Witness for `backlog_never_shrinks`: a state whose backlog holds order 5,
which also completed and earned revenue today; it stays in the backlog and
is spawned again next day as `process_order(5, 2.5, is_new=False)`. -/
theorem backlog_never_shrinks_witness :
    (run_one_day [1]
        [{ orderId := 5, revenue := 1000, dayCompleted := 4, leadTime := 3 }]
        { day := 3, cash := 0, historyLogs := [],
          backlog := [{ id := 5, arrivalTimeGlobal := 5 / 2 }],
          lastOrderId := 9, gameOver := false, machinesOwned := none }).backlog =
      [{ id := 5, arrivalTimeGlobal := 5 / 2 }] ∧
    ((5 : ℕ), (5 / 2 : ℚ), false) ∈
      initialBacklogProcesses
        (run_one_day [1]
          [{ orderId := 5, revenue := 1000, dayCompleted := 4, leadTime := 3 }]
          { day := 3, cash := 0, historyLogs := [],
            backlog := [{ id := 5, arrivalTimeGlobal := 5 / 2 }],
            lastOrderId := 9, gameOver := false, machinesOwned := none }).backlog :=
  ⟨(backlog_never_shrinks _ _ _).1,
   (backlog_never_shrinks _ _ _).2 { id := 5, arrivalTimeGlobal := 5 / 2 }
     (List.mem_singleton.mpr rfl)⟩

/-- C5: per-station purchase behaviour of lines 189-198.  When no requested
count is below its owned count, the purchase deducts exactly the summed
per-station `(requested − owned) * 20000` and sets the owned counts to the
requested counts; when no requested count is above its owned count, cash
and owned counts are unchanged; and an owned count is never decreased by
any request. -/
theorem purchase_per_station (cash : ℤ) (owned counts : MachineCounts) :
    (owned.prep ≤ counts.prep → owned.assembly ≤ counts.assembly →
      owned.testing ≤ counts.testing →
      purchase cash owned counts =
        (cash - (((counts.prep : ℤ) - (owned.prep : ℤ))
            + ((counts.assembly : ℤ) - (owned.assembly : ℤ))
            + ((counts.testing : ℤ) - (owned.testing : ℤ))) * MACHINE_COST,
          counts))
    ∧ (counts.prep ≤ owned.prep → counts.assembly ≤ owned.assembly →
      counts.testing ≤ owned.testing →
      purchase cash owned counts = (cash, owned))
    ∧ owned.prep ≤ (updatedOwned owned counts).prep
    ∧ owned.assembly ≤ (updatedOwned owned counts).assembly
    ∧ owned.testing ≤ (updatedOwned owned counts).testing := by
  obtain ⟨op, oa, ot⟩ := owned
  obtain ⟨cp, ca, ct⟩ := counts
  refine ⟨?_, ?_, ?_, ?_, ?_⟩ <;>
    simp only [purchase, capexCost, updatedOwned, MACHINE_COST, Prod.mk.injEq,
      MachineCounts.mk.injEq, gt_iff_lt] <;>
    (try intro h1 h2 h3) <;>
    split_ifs <;>
    (try simp_all) <;>
    omega

/-- Witness for `purchase_per_station`: the spec scenario — raising Assembly
from owned 1 to requested 3 (Prep and Testing unchanged) with cash 50000
deducts exactly 40000 and sets owned Assembly to 3. -/
theorem purchase_per_station_witness :
    purchase 50000 { prep := 1, assembly := 1, testing := 1 }
        { prep := 1, assembly := 3, testing := 1 } =
      (10000, { prep := 1, assembly := 3, testing := 1 }) := by
  have h := (purchase_per_station 50000
      { prep := 1, assembly := 1, testing := 1 }
      { prep := 1, assembly := 3, testing := 1 }).1
    (by norm_num) (by norm_num) (by norm_num)
  rw [h]
  norm_num [MACHINE_COST]

/-- Chains the embedded arrival loop over successive days exactly as the
source threads state: each RUN NEXT DAY click hands `state['last_order_id']`
to `daily_arrivals` (line 88 via `DailyFactory.__init__` is id-neutral;
line 100 increments it) and `state['day']` grows by one per run (line 140).
Returns every order id assigned during the campaign, in order. -/
def campaignOrderIds : List (List ℚ) → ℕ → ℕ → List ℕ
  | [], _, _ => []
  | daySamples :: rest, day, lastId =>
    ((daily_arrivals daySamples day lastId).1.map Prod.fst)
      ++ campaignOrderIds rest (day + 1) (daily_arrivals daySamples day lastId).2

/-- Within one day, the arrival loop assigns exactly the consecutive ids
`lastId + 1, …, lastId + n` and leaves the counter at `lastId + n`. -/
theorem dailyArrivalsGo_ids (samples : List ℚ) :
    ∀ t lastId day, ∃ n,
      (dailyArrivalsGo samples t day lastId).1.map Prod.fst =
          List.range' (lastId + 1) n ∧
        (dailyArrivalsGo samples t day lastId).2 = lastId + n := by
  induction samples with
  | nil =>
    intro t lastId day
    exact ⟨0, rfl, rfl⟩
  | cons interarrival rest ih =>
    intro t lastId day
    rw [dailyArrivalsGo]
    split
    · exact ⟨0, rfl, rfl⟩
    · obtain ⟨m, hm1, hm2⟩ := ih (t + interarrival) (lastId + 1) day
      refine ⟨m + 1, ?_, ?_⟩
      · simp only [List.map_cons, hm1, List.range'_succ]
      · simpa [Nat.add_assoc, Nat.add_comm 1 m] using hm2

/-- Across the whole campaign the assigned ids are exactly a block of
consecutive integers starting right after the initial counter. -/
theorem campaignOrderIds_range (dss : List (List ℚ)) :
    ∀ day lastId, ∃ n,
      campaignOrderIds dss day lastId = List.range' (lastId + 1) n := by
  induction dss with
  | nil =>
    intro day lastId
    exact ⟨0, rfl⟩
  | cons daySamples rest ih =>
    intro day lastId
    obtain ⟨n1, h1, h2⟩ := dailyArrivalsGo_ids daySamples 0 lastId day
    obtain ⟨n2, h3⟩ := ih (day + 1) (lastId + n1)
    refine ⟨n1 + n2, ?_⟩
    rw [campaignOrderIds, daily_arrivals, h1, h2, h3,
      show lastId + n1 + 1 = lastId + 1 + n1 by omega,
      List.range'_append_1, Nat.add_comm n2 n1]

/-- C7: no order id is ever assigned twice across the campaign — the ids
handed out over any sequence of days are pairwise distinct, each one is
strictly greater than the initial last-assigned-id counter, and they form
the consecutive block starting at the next integer after it. -/
theorem order_ids_never_reused (dss : List (List ℚ)) (day lastId : ℕ) :
    (campaignOrderIds dss day lastId).Nodup ∧
    (∀ i, i ∈ campaignOrderIds dss day lastId → lastId < i) ∧
    campaignOrderIds dss day lastId =
      List.range' (lastId + 1) (campaignOrderIds dss day lastId).length := by
  obtain ⟨n, hn⟩ := campaignOrderIds_range dss day lastId
  refine ⟨?_, ?_, ?_⟩
  · rw [hn]; exact List.nodup_range' _ _
  · intro i hi
    rw [hn] at hi
    have := (List.mem_range'_1).mp hi
    omega
  · rw [hn, List.length_range']

/-- Witness for `order_ids_never_reused`: a two-day campaign starting at
last id 5 (arrival gaps 1.0 and 2.0 on the first day, 3.0 on the second)
assigns the ids 6, 7, 8 — no id repeats and all exceed 5. -/
theorem order_ids_never_reused_witness :
    (campaignOrderIds [[1, 2], [3]] 0 5).Nodup ∧ 5 < 6 :=
  ⟨(order_ids_never_reused [[1, 2], [3]] 0 5).1,
   (order_ids_never_reused [[1, 2], [3]] 0 5).2.1 6 (by
    norm_num [campaignOrderIds, daily_arrivals, dailyArrivalsGo, HOURS_PER_DAY])⟩

/-- Modelled from the spec: the `simpy.Resource` objects created at line 39
are third-party library state, so the Station contract of spec §4.1 is
embedded directly: `acquire` grants a capacity unit immediately when
occupancy < capacity and otherwise appends the requester to the FIFO wait
queue; `release` frees one unit, handing it to the queue head (occupancy
unchanged) when the queue is non-empty. -/
structure Station where
  capacity : ℕ
  occupancy : ℕ
  waitQueue : List ℕ
deriving DecidableEq, Repr

/-- One scheduler-serialized station event: an order requesting a unit, or
a unit being released. -/
inductive StationOp
  | acquire (oid : ℕ)
  | release
deriving DecidableEq, Repr

/-- Modelled from the spec: the effect of one station event (spec §4.1). -/
def Station.step (s : Station) : StationOp → Station
  | .acquire oid =>
    if s.occupancy < s.capacity then { s with occupancy := s.occupancy + 1 }
    else { s with waitQueue := s.waitQueue ++ [oid] }
  | .release =>
    match s.waitQueue with
    | [] => { s with occupancy := s.occupancy - 1 }
    | _ :: rest => { s with waitQueue := rest }

/-- A station as created at line 39 (`simpy.Resource(env, capacity=c)`):
given capacity, empty, nobody inside. -/
def Station.init (c : ℕ) : Station :=
  { capacity := c, occupancy := 0, waitQueue := [] }

/-- The station state after a sequence of scheduler-serialized events. -/
def Station.runOps (s : Station) (ops : List StationOp) : Station :=
  ops.foldl Station.step s

/-- One event preserves the capacity bound (and the capacity itself). -/
theorem Station.step_occupancy_le (s : Station) (op : StationOp)
    (h : s.occupancy ≤ s.capacity) :
    (s.step op).occupancy ≤ (s.step op).capacity ∧
      (s.step op).capacity = s.capacity := by
  cases op with
  | acquire oid =>
    simp only [Station.step]
    split_ifs with hlt
    · exact ⟨hlt, rfl⟩
    · exact ⟨h, rfl⟩
  | release =>
    simp only [Station.step]
    cases s.waitQueue with
    | nil => exact ⟨by simpa using Nat.le_trans (Nat.sub_le _ _) h, rfl⟩
    | cons q rest => exact ⟨h, rfl⟩

/-- C8: at every instant of a day's run — i.e. after any prefix of the
scheduler's serialized acquire/release events — a station created with
capacity `c` has occupancy at most its capacity. -/
theorem occupancy_le_capacity (c : ℕ) (ops : List StationOp) :
    ((Station.init c).runOps ops).occupancy ≤
      ((Station.init c).runOps ops).capacity := by
  suffices h : ∀ (ops : List StationOp) (s : Station),
      s.occupancy ≤ s.capacity →
      (s.runOps ops).occupancy ≤ (s.runOps ops).capacity by
    exact h ops (Station.init c) (Nat.zero_le c)
  intro ops
  induction ops with
  | nil => intro s hs; exact hs
  | cons op rest ih =>
    intro s hs
    exact ih (s.step op) (Station.step_occupancy_le s op hs).1

end Game
